import Mathlib

/-!
Shallow embedding of `marc_to_readable` (files `converters.py` and `utils.py`):
the MARC field/record data model, the text-cleanup primitives, and the
per-record conversion `marcxml_to_readable`, together with proofs of the
specification claims about them.

Strings are modelled as Lean `String`/`List Char`.  Python's `re` operations
used by the source are embedded as executable functions on `List Char`:
`\[(.*?)\]` substitution (lazy, `.` does not cross a newline), `\s+`
collapsing, `re.search(r"\d{4}", ...)` and `re.match(r"\d+", ...)`.
Python whitespace (`str.strip`, `\s`) is the Unicode whitespace set;
`str.lower` is modelled on the ASCII and Latin-1 letter ranges (the only
case-folding the converter's comparisons exercise).  Digits (`\d`, `int`)
are modelled as the ASCII digits.  Exceptions (`AttributeError` from
calling `.value()` on a missing field, `IndexError` from indexing a short
fixed field) are modelled with `Except`; the ad-hoc `print` call in the
source is modelled as an explicit list of emitted lines.
-/

namespace MarcToReadable

/-- Python whitespace (`str.isspace` / regex `\s` on `str`): the Unicode
whitespace code points. -/
def isPySpace (c : Char) : Bool :=
  let n := c.toNat
  (9 ≤ n && n ≤ 13) || (28 ≤ n && n ≤ 31) || n == 32 || n == 133 || n == 160 ||
    n == 0x1680 || (0x2000 ≤ n && n ≤ 0x200A) || n == 0x2028 || n == 0x2029 ||
    n == 0x202F || n == 0x205F || n == 0x3000

/-- The character set of the final `.strip(";:,./[] ")` in the source. -/
def stripSet (c : Char) : Bool :=
  c == ';' || c == ':' || c == ',' || c == '.' || c == '/' || c == '[' ||
    c == ']' || c == ' '

/-- Python `str.strip` with character predicate `p`: drop `p`-characters from
both ends. -/
def pyStrip (p : Char → Bool) (l : List Char) : List Char :=
  List.rdropWhile p (List.dropWhile p l)

/-- Python `str.lower`, modelled on the ASCII (`A`-`Z`) and Latin-1
(`À`-`Þ`, except `×`) uppercase ranges; the role keywords compared by the
converter (`autor`, `väljaandja`, `tõlkija`, ...) live in these ranges. -/
def pyToLower (c : Char) : Char :=
  let n := c.toNat
  if 65 ≤ n && n ≤ 90 then Char.ofNat (n + 32)
  else if 0xC0 ≤ n && n ≤ 0xDE && n != 0xD7 then Char.ofNat (n + 32)
  else c

/-- `str.lower` lifted to strings. -/
def pyLowerStr (s : String) : String := ⟨s.data.map pyToLower⟩

/-- Substring containment: Python's `needle in hay`. -/
def hasSub (needle hay : List Char) : Bool :=
  needle.isPrefixOf hay ||
    match hay with
    | [] => false
    | _ :: rest => hasSub needle rest

/-- One step of the global substitution `re.sub(r"\[(.*?)\]", r"\1", s)`.
The second argument is `none` while scanning outside a candidate match and
`some buf` (with `buf` the reversed characters read since the pending `[`)
while the engine is lazily looking for the closing `]`.  A newline aborts
the pending match (`.` does not match `\n`), and brackets left unclosed at
the end of input are emitted verbatim, exactly as the regex engine does. -/
def bracketAux : Option (List Char) → List Char → List Char
  | none, [] => []
  | some buf, [] => '[' :: buf.reverse
  | none, c :: rest =>
    if c = '[' then bracketAux (some []) rest
    else c :: bracketAux none rest
  | some buf, c :: rest =>
    if c = ']' then buf.reverse ++ bracketAux none rest
    else if c = '\n' then ('[' :: buf.reverse) ++ '\n' :: bracketAux none rest
    else bracketAux (some (c :: buf)) rest

/-- `SQUARE_BRACKETS_REGEX.sub(r"\1", s)`: replace every (lazily matched)
bracketed substring `[X]` by its content `X`. -/
def bracketSub (l : List Char) : List Char := bracketAux none l

/-- One pass of `WHITESPACE_REGEX.sub(" ", s)`; the flag records whether the
previous character belonged to a whitespace run already emitted as `' '`. -/
def wsCollapseAux : Bool → List Char → List Char
  | _, [] => []
  | true, c :: rest =>
    if isPySpace c then wsCollapseAux true rest
    else c :: wsCollapseAux false rest
  | false, c :: rest =>
    if isPySpace c then ' ' :: wsCollapseAux true rest
    else c :: wsCollapseAux false rest

/-- `WHITESPACE_REGEX.sub(" ", s)`: collapse every whitespace run to a single
space. -/
def wsCollapse (l : List Char) : List Char := wsCollapseAux false l

/-- The single-value cleanup pipeline of `get_stripped_subfield` /
`get_stripped_subfields`: `value.strip()`, bracket substitution, whitespace
collapsing, then `.strip().strip(";:,./[] ")`. -/
def cleanChars (l : List Char) : List Char :=
  pyStrip stripSet (pyStrip isPySpace (wsCollapse (bracketSub (pyStrip isPySpace l))))

/-- Single-value cleanup on strings. -/
def cleanString (s : String) : String := ⟨cleanChars s.data⟩

/-- `int` of a run of ASCII digits (`int("0123") = 123`). -/
def natOfDigits (ds : List Char) : Nat :=
  ds.foldl (fun n c => n * 10 + (c.toNat - 48)) 0

/-- `re.search(YEAR_REGEX, s)` followed by `int(...)` for `YEAR_REGEX =
r"\d{4}"`: the value of the leftmost run of four consecutive digits. -/
def find4digits : List Char → Option Nat
  | [] => none
  | a :: rest =>
    match rest with
    | b :: c :: d :: _ =>
      if a.isDigit && b.isDigit && c.isDigit && d.isDigit then
        some (natOfDigits [a, b, c, d])
      else find4digits rest
    | _ => none

/-- `re.match(NUMBER_REGEX, s)` followed by `int(...)` for `NUMBER_REGEX =
r"\d+"`: the value of the leading digit run, absent when the string does not
start with a digit. -/
def leadingNumber (l : List Char) : Option Nat :=
  let ds := l.takeWhile Char.isDigit
  if ds.isEmpty then none else some (natOfDigits ds)

/-- Python `name.split(", ")`: split on every non-overlapping occurrence of
the two-character separator `", "`, scanning left to right. -/
def splitCS : List Char → List (List Char)
  | [] => [[]]
  | ',' :: ' ' :: rest => [] :: splitCS rest
  | c :: rest =>
    match splitCS rest with
    | [] => [[c]]
    | seg :: segs => (c :: seg) :: segs

/-- `reverse_name` from `utils.py`: split on the literal `", "`; when exactly
two parts result, return `"{parts[1]} {parts[0]}"`, otherwise the input. -/
def reverse_name (name : String) : String :=
  match splitCS name.data with
  | [a, b] => ⟨b ++ ' ' :: a⟩
  | _ => name

/-- A MARC field as the converter consumes it: a 3-character tag, the
control-field data (what `Field.value()` returns on `"001"`/`"008"`), and
the ordered `(code, value)` subfield pairs of a data field. -/
structure MarcField where
  tag : String
  value : String := ""
  subfields : List (Char × String) := []
deriving Repr, DecidableEq

/-- `Field.get(code)`: the first subfield value with the given code. -/
def MarcField.get (f : MarcField) (code : Char) : Option String :=
  (f.subfields.find? (fun p => p.1 = code)).map Prod.snd

/-- `Field.get_subfields(code)`: all subfield values with the given code,
in field order. -/
def MarcField.get_subfields (f : MarcField) (code : Char) : List String :=
  f.subfields.filterMap (fun p => if p.1 = code then some p.2 else none)

/-- A parsed MARC record: its ordered list of fields. -/
structure MarcRecord where
  fields : List MarcField
deriving Repr, DecidableEq

/-- `Record.get(tag)`: the first field with the given tag. -/
def MarcRecord.get (r : MarcRecord) (tag : String) : Option MarcField :=
  r.fields.find? (fun f => f.tag = tag)

/-- `Record.get_fields(tag)`: all fields with the given tag, in record
order. -/
def MarcRecord.getFields (r : MarcRecord) (tag : String) : List MarcField :=
  r.fields.filter (fun f => f.tag = tag)

/-- `get_stripped_subfield` from `converters.py`: clean the first value of
the subfield code, or `""` when the subfield is absent or empty. -/
def get_stripped_subfield (f : MarcField) (code : Char) : String :=
  match f.get code with
  | none => ""
  | some v => if v = "" then "" else cleanString v

/-- `get_stripped_subfields` from `converters.py`: clean every occurrence of
the subfield code (the source appends the cleaned value of every occurrence,
empty or not). -/
def get_stripped_subfields (f : MarcField) (code : Char) : List String :=
  let values := f.get_subfields code
  if 0 < values.length then values.map cleanString else []

/-- The `ReadableRecord` dataclass of `converters.py`. -/
structure ReadableRecord where
  ester_id : String
  title : String := ""
  subtitle : String := ""
  part_number : String := ""
  part_name : String := ""
  edition : String := ""
  authors : List String := []
  publisher : String := ""
  year_published : Option Nat := none
  city_published : String := ""
  num_pages : Option Nat := none
  isbn : String := ""
  series : String := ""
  series_number : String := ""
  dimensions : String := ""
  language : String := ""
  original_language : String := ""
  genres : List String := []
  editors : List String := []
  publishers : List String := []
  compilers : List String := []
  illustrators : List String := []
  translators : List String := []
  designers : List String := []
  photographers : List String := []
deriving Repr, DecidableEq

/-- The Python exceptions the conversion can raise. -/
inductive PyErr where
  | attributeError
  | indexError
deriving Repr, DecidableEq

/-! Per-attribute value functions, one per assignment in the body of the
record loop of `marcxml_to_readable`.  Each takes the previous value of the
attribute and returns the value after the corresponding source statement, so
that every extraction step below is a single structure update. -/

/-- Field 245, subfield `a` → title. -/
def titleVal (record : MarcRecord) (old : String) : String :=
  match record.get "245" with
  | none => old
  | some tf => get_stripped_subfield tf 'a'

/-- Field 245, subfield `b` → subtitle. -/
def subtitleVal (record : MarcRecord) (old : String) : String :=
  match record.get "245" with
  | none => old
  | some tf => get_stripped_subfield tf 'b'

/-- Field 245, repeatable subfield `n` → part number (joined with `", "`,
only assigned when the list is non-empty). -/
def part_numberVal (record : MarcRecord) (old : String) : String :=
  match record.get "245" with
  | none => old
  | some tf =>
    let pns := get_stripped_subfields tf 'n'
    if pns.isEmpty then old else String.intercalate ", " pns

/-- Field 245, repeatable subfield `p` → part name. -/
def part_nameVal (record : MarcRecord) (old : String) : String :=
  match record.get "245" with
  | none => old
  | some tf =>
    let pps := get_stripped_subfields tf 'p'
    if pps.isEmpty then old else String.intercalate ", " pps

/-- The `print` call in the 245 block: emitted lines (source lines 98-99 of
`converters.py`). -/
def printsVal (record : MarcRecord) (ester_id : String) : List String :=
  match record.get "245" with
  | none => []
  | some tf =>
    if hasSub "b14256381".data ester_id.data then
      ["The subtitle is " ++ get_stripped_subfield tf 'b']
    else []

/-- Field 250, subfield `a` → edition. -/
def editionVal (record : MarcRecord) (old : String) : String :=
  match record.get "250" with
  | none => old
  | some f => get_stripped_subfield f 'a'

/-- Field 100, subfield `a` → seed of the author list (the source calls
`record.get("100", {})`, so a missing field yields `""`). -/
def authors100Val (record : MarcRecord) (old : List String) : List String :=
  let author :=
    match record.get "100" with
    | none => ""
    | some f => get_stripped_subfield f 'a'
  if author = "" then old else old ++ [reverse_name author]

/-- Field 260, subfield `b` → publisher. -/
def publisherVal (record : MarcRecord) (old : String) : String :=
  match record.get "260" with
  | none => old
  | some f => get_stripped_subfield f 'b'

/-- Field 260, subfield `c` → year published (first 4-digit run, assigned
only when the cleaned subfield is non-empty). -/
def yearVal (record : MarcRecord) (old : Option Nat) : Option Nat :=
  match record.get "260" with
  | none => old
  | some f =>
    let c := get_stripped_subfield f 'c'
    if c = "" then old else find4digits c.data

/-- Field 260, subfield `a` → city published. -/
def cityVal (record : MarcRecord) (old : String) : String :=
  match record.get "260" with
  | none => old
  | some f => get_stripped_subfield f 'a'

/-- Field 020 → ISBN: subfield `a`, suppressed when subfield `q` is present,
non-empty and contains `"pdf"` case-insensitively. -/
def isbnVal (record : MarcRecord) (old : String) : String :=
  match record.get "020" with
  | none => old
  | some f =>
    match f.get 'q' with
    | none => get_stripped_subfield f 'a'
    | some q =>
      if q = "" then get_stripped_subfield f 'a'
      else if hasSub "pdf".data (pyLowerStr q).data then old
      else get_stripped_subfield f 'a'

/-- Field 490, subfield `a` → series name. -/
def seriesVal (record : MarcRecord) (old : String) : String :=
  match record.get "490" with
  | none => old
  | some f => get_stripped_subfield f 'a'

/-- Field 490, subfield `v` → series number. -/
def series_numberVal (record : MarcRecord) (old : String) : String :=
  match record.get "490" with
  | none => old
  | some f => get_stripped_subfield f 'v'

/-- Field 300, subfield `a` → page count (leading digit run, assigned only
when the cleaned subfield is non-empty). -/
def numPagesVal (record : MarcRecord) (old : Option Nat) : Option Nat :=
  match record.get "300" with
  | none => old
  | some f =>
    let a := get_stripped_subfield f 'a'
    if a = "" then old else leadingNumber a.data

/-- Field 300, subfield `c` → dimensions. -/
def dimensionsVal (record : MarcRecord) (old : String) : String :=
  match record.get "300" with
  | none => old
  | some f => get_stripped_subfield f 'c'

/-- Field 008 → language: `value()[35:38]`. -/
def languageVal (record : MarcRecord) (old : String) : String :=
  match record.get "008" with
  | none => old
  | some f => ⟨(f.value.data.drop 35).take 3⟩

/-- Field 041, subfield `h` → original language. -/
def original_languageVal (record : MarcRecord) (old : String) : String :=
  match record.get "041" with
  | none => old
  | some f => get_stripped_subfield f 'h'

/-- Fields 655, subfield `a` → genres: append every non-empty cleaned
value. -/
def genresVal (record : MarcRecord) (old : List String) : List String :=
  (record.getFields "655").foldl
    (fun acc f =>
      let genre := get_stripped_subfield f 'a'
      if genre = "" then acc else acc ++ [genre])
    old

/-! The extraction steps, in source order. -/

/-- Title block (field 245). -/
def step245 (record : MarcRecord) (res : ReadableRecord) : ReadableRecord :=
  { res with
    title := titleVal record res.title
    subtitle := subtitleVal record res.subtitle
    part_number := part_numberVal record res.part_number
    part_name := part_nameVal record res.part_name }

/-- Edition (field 250). -/
def step250 (record : MarcRecord) (res : ReadableRecord) : ReadableRecord :=
  { res with edition := editionVal record res.edition }

/-- Primary author (field 100). -/
def step100 (record : MarcRecord) (res : ReadableRecord) : ReadableRecord :=
  { res with authors := authors100Val record res.authors }

/-- Publication block (field 260). -/
def step260 (record : MarcRecord) (res : ReadableRecord) : ReadableRecord :=
  { res with
    publisher := publisherVal record res.publisher
    year_published := yearVal record res.year_published
    city_published := cityVal record res.city_published }

/-- ISBN (field 020). -/
def step020 (record : MarcRecord) (res : ReadableRecord) : ReadableRecord :=
  { res with isbn := isbnVal record res.isbn }

/-- Series (field 490). -/
def step490 (record : MarcRecord) (res : ReadableRecord) : ReadableRecord :=
  { res with
    series := seriesVal record res.series
    series_number := series_numberVal record res.series_number }

/-- Physical description (field 300). -/
def step300 (record : MarcRecord) (res : ReadableRecord) : ReadableRecord :=
  { res with
    num_pages := numPagesVal record res.num_pages
    dimensions := dimensionsVal record res.dimensions }

/-- Language (field 008). -/
def step008 (record : MarcRecord) (res : ReadableRecord) : ReadableRecord :=
  { res with language := languageVal record res.language }

/-- Original language (field 041). -/
def step041 (record : MarcRecord) (res : ReadableRecord) : ReadableRecord :=
  { res with original_language := original_languageVal record res.original_language }

/-- Genres (fields 655). -/
def step655 (record : MarcRecord) (res : ReadableRecord) : ReadableRecord :=
  { res with genres := genresVal record res.genres }

/-- The first dispatch statement of the 700 loop: `if "autor" == role and
name not in result.authors: result.authors.append(name)`. -/
def step700autor (res : ReadableRecord) (role name : String) : ReadableRecord :=
  if role = "autor" ∧ name ∉ res.authors then
    { res with authors := res.authors ++ [name] }
  else res

/-- The `if`/`elif` chain of the 700 loop dispatching the seven remaining
role terms to their contributor lists. -/
def step700chain (res : ReadableRecord) (role name : String) : ReadableRecord :=
  if role = "toimetaja" then { res with editors := res.editors ++ [name] }
  else if role = "väljaandja" then { res with publishers := res.publishers ++ [name] }
  else if role = "koostaja" then { res with compilers := res.compilers ++ [name] }
  else if role = "illustreerija" then { res with illustrators := res.illustrators ++ [name] }
  else if role = "tõlkija" then { res with translators := res.translators ++ [name] }
  else if role = "kujundaja" then { res with designers := res.designers ++ [name] }
  else if role = "fotograaf" then { res with photographers := res.photographers ++ [name] }
  else res

/-- The body of the 700-contributor loop for a single field: read the role
(subfield `e`, falling back to `4`) and the name (subfield `a`); when both
are non-empty, reorder the name, lower-case the role, and dispatch on exact
equality with the eight role terms. -/
def step700one (res : ReadableRecord) (f : MarcField) : ReadableRecord :=
  let e := get_stripped_subfield f 'e'
  let role0 := if e = "" then get_stripped_subfield f '4' else e
  let name0 := get_stripped_subfield f 'a'
  if role0 = "" ∨ name0 = "" then res
  else
    step700chain (step700autor res (pyLowerStr role0) (reverse_name name0))
      (pyLowerStr role0) (reverse_name name0)

/-- Contributors (fields 700), in record order. -/
def step700 (record : MarcRecord) (res : ReadableRecord) : ReadableRecord :=
  (record.getFields "700").foldl step700one res

/-- All extraction steps of the record loop, applied in source order to the
freshly constructed `ReadableRecord(ester_id=ester_id)`. -/
def build (record : MarcRecord) (ester_id : String) : ReadableRecord :=
  step700 record (step655 record (step041 record (step008 record (step300 record
    (step490 record (step020 record (step260 record (step100 record
      (step250 record (step245 record { ester_id := ester_id }))))))))))

/-- The digital-medium filter of the record loop: when `skip_digital` is set,
inspect `record.get("008").value()[23]` (an `AttributeError` when the field
is missing, an `IndexError` when its value is shorter than 24 characters)
and report whether the record is to be skipped (`q` or `s`). -/
def digitalFilter (skip_digital : Bool) (record : MarcRecord) : Except PyErr Bool :=
  if skip_digital then
    match record.get "008" with
    | none => .error .attributeError
    | some f008 =>
      if h : 23 < f008.value.data.length then
        .ok (f008.value.data.get ⟨23, h⟩ = 'q' || f008.value.data.get ⟨23, h⟩ = 's')
      else .error .indexError
  else .ok false

/-- One iteration of the record loop of `marcxml_to_readable`:
`record.get("001").value()` (an `AttributeError` when the field is missing),
the optional digital-medium filter, then the extraction steps.
`Except.ok (none, _)` is a record skipped by the filter; the second
component is the lines printed while processing. -/
def convertRecord (skip_digital : Bool) (record : MarcRecord) :
    Except PyErr (Option ReadableRecord × List String) :=
  match record.get "001" with
  | none => .error .attributeError
  | some f001 =>
    match digitalFilter skip_digital record with
    | .error e => .error e
    | .ok true => .ok (none, [])
    | .ok false =>
      .ok (some (build record f001.value), printsVal record f001.value)

/-- `marcxml_to_readable` on the already-parsed record sequence: convert the
records in order, collecting outputs and printed lines; a raised exception
aborts the whole conversion. -/
def marcxml_to_readable (records : List MarcRecord) (skip_digital : Bool := false) :
    Except PyErr (List ReadableRecord × List String) :=
  match records with
  | [] => .ok ([], [])
  | r :: rest =>
    match convertRecord skip_digital r with
    | .error e => .error e
    | .ok (o, tr) =>
      match marcxml_to_readable rest skip_digital with
      | .error e => .error e
      | .ok (outs, trs) =>
        .ok ((match o with | none => outs | some x => x :: outs), tr ++ trs)

/-! Specification-side definitions.  These follow the words of the spec (for
the refinement-style claims about numeric extraction), and a normal-form
predicate used to reason about the cleanup pipeline. -/

/-- Four consecutive ASCII digits occur in `l` starting at position `i`. -/
def fourDigitsAt (l : List Char) (i : Nat) : Prop :=
  ((l.drop i).take 4).length = 4 ∧ ∀ c ∈ (l.drop i).take 4, c.isDigit = true

instance (l : List Char) (i : Nat) : Decidable (fourDigitsAt l i) := by
  unfold fourDigitsAt; exact instDecidableAnd

/-- Spec-side characterization of the year extraction: `n` is the integer
value of the first (leftmost) 4-digit run of `l`. -/
def specFirstFourDigitRun (l : List Char) (n : Nat) : Prop :=
  ∃ i, fourDigitsAt l i ∧ (∀ j, j < i → ¬fourDigitsAt l j) ∧
    n = natOfDigits ((l.drop i).take 4)

/-- Spec-side characterization of the page-count extraction: `n` is the
integer value of the leading digit run of `l` (which must be non-empty and
maximal). -/
def specLeadingDigitRun (l : List Char) (n : Nat) : Prop :=
  ∃ ds rest, l = ds ++ rest ∧ ds ≠ [] ∧ (∀ c ∈ ds, c.isDigit = true) ∧
    (∀ c, rest.head? = some c → c.isDigit = false) ∧ n = natOfDigits ds

/-- Whitespace normal form: every whitespace character is a plain space and
no two whitespace characters are adjacent.  This is the shape
`WHITESPACE_REGEX.sub(" ", s)` leaves a string in. -/
def wsNormal (l : List Char) : Prop :=
  (∀ c ∈ l, isPySpace c = true → c = ' ') ∧
    l.Chain' (fun a b => ¬(isPySpace a = true ∧ isPySpace b = true))

/-- The eight role terms of the 700-contributor dispatch, in source order. -/
def roleTerms : List String :=
  ["autor", "toimetaja", "väljaandja", "koostaja", "illustreerija",
   "tõlkija", "kujundaja", "fotograaf"]

/-- The cleaned role of a 700 field: subfield `e`, falling back to `4`. -/
def roleOf (f : MarcField) : String :=
  if get_stripped_subfield f 'e' = "" then get_stripped_subfield f '4'
  else get_stripped_subfield f 'e'

/-- The cleaned (not yet reordered) name of a 700 field: subfield `a`. -/
def nameOf (f : MarcField) : String := get_stripped_subfield f 'a'

/-! Concrete records used as witnesses and counterexamples. -/

/-- A record with only the identifier field. -/
def recIdOnly : MarcRecord := ⟨[⟨"001", "b555", []⟩]⟩

/-- A record with no fields at all (in particular no identifier field). -/
def recNo001 : MarcRecord := ⟨[]⟩

/-- A record without the identifier field but with a well-formed digital
`008` field (24 characters, `q` at position 23). -/
def recDigitalNoId : MarcRecord :=
  ⟨[⟨"008", "                       q", []⟩]⟩

/-- Identifier plus a digital `008` field (position 23 is `q`). -/
def recDigital : MarcRecord :=
  ⟨[⟨"001", "b2", []⟩, ⟨"008", "                       q", []⟩]⟩

/-- Identifier, a primary author, and a 700 contributor naming the same
person with role `autor`. -/
def recDupAuthor : MarcRecord :=
  ⟨[⟨"001", "b1", []⟩,
    ⟨"100", "", [('a', "Tamm, Jaan")]⟩,
    ⟨"700", "", [('a', "Tamm, Jaan"), ('e', "autor")]⟩]⟩

/-- The output record built from `recDupAuthor`. -/
def outDupAuthor : ReadableRecord := build recDupAuthor "b1"

/-- Identifier plus publication and physical-description fields carrying the
spec's year and page-count examples. -/
def recNumeric : MarcRecord :=
  ⟨[⟨"001", "b3", []⟩,
    ⟨"260", "", [('c', "Tallinn : Valgus, 1987.")]⟩,
    ⟨"300", "", [('a', "245 lk.")]⟩]⟩

/-- The output record built from `recNumeric`. -/
def outNumeric : ReadableRecord := build recNumeric "b3"

/-- Identifier plus an `008` field of length 36 (shorter than 38). -/
def recShort008 : MarcRecord :=
  ⟨[⟨"001", "b4", []⟩, ⟨"008", "                                   x", []⟩]⟩

/-- A record whose identifier contains the hardcoded debug id `b14256381`
and that has a 245 field, making the source's `print` call fire. -/
def recDebugPrint : MarcRecord :=
  ⟨[⟨"001", "b14256381", []⟩, ⟨"245", "", [('a', "T"), ('b', "Sub")]⟩]⟩

/-- A 700 field whose role merely contains `koostaja` as a proper
substring. -/
def fldRoleSubstring : MarcField :=
  ⟨"700", "", [('a', "Kask, Mari"), ('e', "suur koostaja abi")]⟩

/-- A 700 field whose role cleans and lower-cases to exactly `koostaja`. -/
def fldRoleExact : MarcField :=
  ⟨"700", "", [('a', "Kask, Mari"), ('e', "Koostaja ,")]⟩

/-- A minimal output record to feed the dispatch step. -/
def resEmpty : ReadableRecord := { ester_id := "x" }

/-- A 245 field with one part-number subfield that cleans to the empty
string. -/
def fldEmptyPart : MarcField := ⟨"245", "", [('n', " , ")]⟩

/-! ## Helper lemmas: the strip primitives -/

theorem pyStrip_head (p : Char → Bool) (l : List Char) {c : Char}
    (h : (pyStrip p l).head? = some c) : p c = false := by
  have hd := List.head?_dropWhile_not p l
  obtain ⟨t, ht⟩ := List.rdropWhile_prefix p (l.dropWhile p)
  unfold pyStrip at h
  cases hs : List.rdropWhile p (l.dropWhile p) with
  | nil => rw [hs] at h; cases h
  | cons a as =>
    rw [hs, List.head?_cons] at h
    cases h
    rw [hs] at ht
    rw [← ht] at hd
    simpa using hd

theorem pyStrip_last (p : Char → Bool) (l : List Char) {c : Char}
    (h : (pyStrip p l).getLast? = some c) : p c = false := by
  unfold pyStrip at h
  have hne : List.rdropWhile p (l.dropWhile p) ≠ [] := by
    intro hnil
    rw [hnil] at h
    cases h
  have hlast := List.rdropWhile_last_not p (l.dropWhile p) hne
  rw [List.getLast?_eq_getLast _ hne] at h
  cases h
  simpa using hlast

theorem pyStrip_eq_self (p : Char → Bool) (l : List Char)
    (hh : ∀ c, l.head? = some c → p c = false)
    (hl : ∀ c, l.getLast? = some c → p c = false) : pyStrip p l = l := by
  unfold pyStrip
  have h1 : l.dropWhile p = l := by
    rw [List.dropWhile_eq_self_iff]
    intro hlen
    have hhd : l.head? = some (l.get ⟨0, hlen⟩) := by
      cases l with
      | nil => simp at hlen
      | cons a as => rfl
    have hp := hh _ hhd
    simp only [List.get_eq_getElem] at hp
    simp [hp]
  rw [h1, List.rdropWhile_eq_self_iff]
  intro hne
  have hlst : l.getLast? = some (l.getLast hne) := List.getLast?_eq_getLast l hne
  simp [hl _ hlst]

theorem pyStrip_within (p : Char → Bool) (l : List Char) : pyStrip p l <:+: l := by
  obtain ⟨u, hu⟩ := List.rdropWhile_prefix p (l.dropWhile p)
  obtain ⟨v, hv⟩ := List.dropWhile_suffix p (l := l)
  refine ⟨v, u, ?_⟩
  unfold pyStrip
  rw [List.append_assoc, hu, hv]

/-! ## Helper lemmas: whitespace collapsing and normal form -/

theorem wsCollapseAux_true_head (l : List Char) {c : Char}
    (h : (wsCollapseAux true l).head? = some c) : isPySpace c = false := by
  induction l with
  | nil => cases h
  | cons a rest ih =>
    simp only [wsCollapseAux] at h
    by_cases ha : isPySpace a = true
    · rw [if_pos ha] at h
      exact ih h
    · rw [if_neg ha, List.head?_cons] at h
      cases h
      simpa using ha

theorem wsNormal_wsCollapseAux (l : List Char) :
    ∀ flag, wsNormal (wsCollapseAux flag l) := by
  induction l with
  | nil =>
    intro flag
    cases flag <;> exact ⟨by simp [wsCollapseAux], by simp [wsCollapseAux]⟩
  | cons a rest ih =>
    intro flag
    by_cases ha : isPySpace a = true
    · cases flag with
      | true =>
        simp only [wsCollapseAux, if_pos ha]
        exact ih true
      | false =>
        simp only [wsCollapseAux, if_pos ha]
        constructor
        · intro c hc hsp
          rcases List.mem_cons.mp hc with h | h
          · exact h
          · exact (ih true).1 c h hsp
        · rw [List.chain'_cons']
          refine ⟨?_, (ih true).2⟩
          intro y hy hcontra
          have hyh : (wsCollapseAux true rest).head? = some y := hy
          rw [wsCollapseAux_true_head rest hyh] at hcontra
          exact absurd hcontra.2 (by simp)
    · cases flag <;>
        · simp only [wsCollapseAux, if_neg ha]
          constructor
          · intro c hc hsp
            rcases List.mem_cons.mp hc with h | h
            · exact absurd (h ▸ hsp) ha
            · exact (ih false).1 c h hsp
          · rw [List.chain'_cons']
            refine ⟨?_, (ih false).2⟩
            intro y _ hcontra
            exact absurd hcontra.1 ha

theorem wsNormal_wsCollapse (l : List Char) : wsNormal (wsCollapse l) :=
  wsNormal_wsCollapseAux l false

theorem wsNormal_of_within {l m : List Char} (h : wsNormal l) (hm : m <:+: l) :
    wsNormal m := by
  obtain ⟨s, t, hst⟩ := hm
  constructor
  · intro c hc
    exact h.1 c (by rw [← hst]; simp [hc])
  · exact List.Chain'.infix h.2 ⟨s, t, hst⟩

theorem wsCollapseAux_eq_self (l : List Char) (h : wsNormal l) :
    wsCollapseAux false l = l ∧
      ((∀ c, l.head? = some c → isPySpace c = false) → wsCollapseAux true l = l) := by
  induction l with
  | nil => exact ⟨rfl, fun _ => rfl⟩
  | cons a rest ih =>
    have hrest : wsNormal rest :=
      ⟨fun c hc => h.1 c (List.mem_cons_of_mem a hc), h.2.tail⟩
    obtain ⟨ih1, ih2⟩ := ih hrest
    by_cases ha : isPySpace a = true
    · have ha' : a = ' ' := h.1 a (List.mem_cons_self a rest) ha
      have hheadrest : ∀ c, rest.head? = some c → isPySpace c = false := by
        intro c hc
        have hch := (List.chain'_cons'.mp h.2).1 c hc
        by_contra hcs
        exact hch ⟨ha, by simpa using hcs⟩
      constructor
      · simp only [wsCollapseAux, if_pos ha]
        rw [ih2 hheadrest, ha']
      · intro hhead
        exact absurd (hhead a rfl) (by simp [ha])
    · constructor
      · simp only [wsCollapseAux, if_neg ha]
        rw [ih1]
      · intro _
        simp only [wsCollapseAux, if_neg ha]
        rw [ih1]

theorem wsCollapse_eq_self {l : List Char} (h : wsNormal l) : wsCollapse l = l :=
  (wsCollapseAux_eq_self l h).1

/-! ## Helper lemmas: the cleanup fixpoint -/

theorem wsNormal_cleanChars (s : List Char) : wsNormal (cleanChars s) := by
  have h3 : wsNormal (wsCollapse (bracketSub (pyStrip isPySpace s))) :=
    wsNormal_wsCollapse _
  refine wsNormal_of_within h3 ?_
  unfold cleanChars
  exact List.IsInfix.trans (pyStrip_within _ _) (pyStrip_within _ _)

theorem cleanChars_fixpoint (s : List Char)
    (hb : bracketSub (cleanChars s) = cleanChars s) :
    cleanChars (cleanChars s) = cleanChars s := by
  have hwsn : wsNormal (cleanChars s) := wsNormal_cleanChars s
  have hhead : ∀ c, (cleanChars s).head? = some c → stripSet c = false := by
    intro c hc
    exact pyStrip_head stripSet _ hc
  have hlast : ∀ c, (cleanChars s).getLast? = some c → stripSet c = false := by
    intro c hc
    exact pyStrip_last stripSet _ hc
  have hheadws : ∀ c, (cleanChars s).head? = some c → isPySpace c = false := by
    intro c hc
    by_contra hcs
    have hc1 : isPySpace c = true := by simpa using hcs
    have hsp : c = ' ' := hwsn.1 c (List.mem_of_mem_head? hc) hc1
    have := hhead c hc
    rw [hsp] at this
    simp [stripSet] at this
  have hlastws : ∀ c, (cleanChars s).getLast? = some c → isPySpace c = false := by
    intro c hc
    by_contra hcs
    have hc1 : isPySpace c = true := by simpa using hcs
    have hsp : c = ' ' := hwsn.1 c (List.mem_of_getLast?_eq_some hc) hc1
    have := hlast c hc
    rw [hsp] at this
    simp [stripSet] at this
  have e1 : pyStrip isPySpace (cleanChars s) = cleanChars s :=
    pyStrip_eq_self _ _ hheadws hlastws
  have e5 : pyStrip stripSet (cleanChars s) = cleanChars s :=
    pyStrip_eq_self _ _ hhead hlast
  have e3 : wsCollapse (cleanChars s) = cleanChars s := wsCollapse_eq_self hwsn
  conv_lhs => rw [cleanChars]
  rw [e1, hb, e3, e1, e5]

/-! ## Helper lemmas: numeric extraction -/

theorem fourDigitsAt_short {l : List Char} {i : Nat} (hlen : l.length < 4) :
    ¬fourDigitsAt l i := by
  rintro ⟨hl, -⟩
  rw [List.length_take, List.length_drop] at hl
  omega

theorem fourDigitsAt_cons_succ {a : Char} {t : List Char} {i : Nat} :
    fourDigitsAt (a :: t) (i + 1) ↔ fourDigitsAt t i := by
  unfold fourDigitsAt
  rw [List.drop_succ_cons]

theorem find4digits_iff (l : List Char) (n : Nat) :
    find4digits l = some n ↔ specFirstFourDigitRun l n := by
  induction l with
  | nil =>
    constructor
    · intro h; cases h
    · rintro ⟨i, hi, -, -⟩
      exact absurd hi (fourDigitsAt_short (by simp))
  | cons a rest ih =>
    match rest with
    | [] =>
      constructor
      · intro h; cases h
      · rintro ⟨i, hi, -, -⟩
        exact absurd hi (fourDigitsAt_short (by simp))
    | [b] =>
      constructor
      · intro h; cases h
      · rintro ⟨i, hi, -, -⟩
        exact absurd hi (fourDigitsAt_short (by simp))
    | [b, c] =>
      constructor
      · intro h; cases h
      · rintro ⟨i, hi, -, -⟩
        exact absurd hi (fourDigitsAt_short (by simp))
    | b :: c :: d :: t =>
      by_cases hd : (a.isDigit && b.isDigit && c.isDigit && d.isDigit) = true
      · have h40 : fourDigitsAt (a :: b :: c :: d :: t) 0 := by
          refine ⟨rfl, ?_⟩
          intro x hx
          simp only [Bool.and_eq_true] at hd
          have hx' : x ∈ [a, b, c, d] := hx
          rcases List.mem_cons.mp hx' with h | hx'
          · exact h ▸ hd.1.1.1
          rcases List.mem_cons.mp hx' with h | hx'
          · exact h ▸ hd.1.1.2
          rcases List.mem_cons.mp hx' with h | hx'
          · exact h ▸ hd.1.2
          rcases List.mem_cons.mp hx' with h | hx'
          · exact h ▸ hd.2
          · cases hx'
        rw [show find4digits (a :: b :: c :: d :: t) =
              some (natOfDigits [a, b, c, d]) by rw [find4digits, if_pos hd]]
        constructor
        · intro h
          injection h with h
          exact ⟨0, h40, fun j hj => absurd hj (Nat.not_lt_zero j), h.symm⟩
        · rintro ⟨i, hi, hmin, hn⟩
          have hi0 : i = 0 := by
            by_contra h0
            exact hmin 0 (Nat.pos_of_ne_zero h0) h40
          subst hi0
          rw [hn]
          rfl
      · have h40 : ¬fourDigitsAt (a :: b :: c :: d :: t) 0 := by
          rintro ⟨-, hall⟩
          apply hd
          simp only [Bool.and_eq_true]
          exact ⟨⟨⟨hall a (by simp), hall b (by simp)⟩, hall c (by simp)⟩,
            hall d (by simp)⟩
        rw [show find4digits (a :: b :: c :: d :: t) =
              find4digits (b :: c :: d :: t) by rw [find4digits, if_neg hd]]
        rw [ih]
        constructor
        · rintro ⟨i, hi, hmin, hn⟩
          refine ⟨i + 1, fourDigitsAt_cons_succ.mpr hi, ?_, ?_⟩
          · intro j hj
            cases j with
            | zero => exact h40
            | succ k =>
              intro hk
              exact hmin k (by omega) (fourDigitsAt_cons_succ.mp hk)
          · rw [hn, List.drop_succ_cons]
        · rintro ⟨i, hi, hmin, hn⟩
          cases i with
          | zero => exact absurd hi h40
          | succ k =>
            refine ⟨k, fourDigitsAt_cons_succ.mp hi, ?_, ?_⟩
            · intro j hj hc
              exact hmin (j + 1) (by omega) (fourDigitsAt_cons_succ.mpr hc)
            · rw [hn, List.drop_succ_cons]

theorem takeWhile_decomp (p : Char → Bool) (ds rest : List Char)
    (hds : ∀ c ∈ ds, p c = true)
    (hrest : ∀ c, rest.head? = some c → p c = false) :
    (ds ++ rest).takeWhile p = ds ∧ (ds ++ rest).dropWhile p = rest := by
  induction ds with
  | nil =>
    simp only [List.nil_append]
    cases rest with
    | nil => exact ⟨rfl, rfl⟩
    | cons r t =>
      have hr := hrest r rfl
      simp [List.takeWhile_cons, List.dropWhile_cons, hr]
  | cons d ds ih =>
    have hd := hds d (by simp)
    have ih' := ih (fun c hc => hds c (by simp [hc]))
    simp [List.takeWhile_cons, List.dropWhile_cons, hd, ih'.1, ih'.2]

theorem leadingNumber_iff (l : List Char) (n : Nat) :
    leadingNumber l = some n ↔ specLeadingDigitRun l n := by
  constructor
  · intro h
    unfold leadingNumber at h
    by_cases he : (l.takeWhile Char.isDigit).isEmpty
    · rw [if_pos he] at h; cases h
    · rw [if_neg he] at h
      injection h with h
      refine ⟨l.takeWhile Char.isDigit, l.dropWhile Char.isDigit,
        (List.takeWhile_append_dropWhile Char.isDigit l).symm, ?_, ?_, ?_, h.symm⟩
      · simpa [List.isEmpty_iff] using he
      · intro c hc; exact List.mem_takeWhile_imp hc
      · intro c hc
        have hw := List.head?_dropWhile_not Char.isDigit l
        rw [hc] at hw
        exact hw
  · rintro ⟨ds, rest, hl, hne, hds, hrest, hn⟩
    subst hl
    obtain ⟨ht, -⟩ := takeWhile_decomp Char.isDigit ds rest hds hrest
    unfold leadingNumber
    rw [ht, if_neg (by simpa [List.isEmpty_iff] using hne), hn]

/-! ## Helper lemmas: frame properties of the 700-contributor step -/

theorem step700autor_ester_id (res : ReadableRecord) (role name : String) :
    (step700autor res role name).ester_id = res.ester_id := by
  unfold step700autor; split <;> rfl

theorem step700chain_ester_id (res : ReadableRecord) (role name : String) :
    (step700chain res role name).ester_id = res.ester_id := by
  unfold step700chain; split_ifs <;> rfl

theorem step700one_ester_id (res : ReadableRecord) (f : MarcField) :
    (step700one res f).ester_id = res.ester_id := by
  unfold step700one
  dsimp only
  split_ifs <;> first | rfl | rw [step700chain_ester_id, step700autor_ester_id]

theorem foldl700_ester_id (l : List MarcField) :
    ∀ res : ReadableRecord, (l.foldl step700one res).ester_id = res.ester_id := by
  induction l with
  | nil => intro res; rfl
  | cons f t ih => intro res; rw [List.foldl_cons, ih, step700one_ester_id]

theorem step700autor_title (res : ReadableRecord) (role name : String) :
    (step700autor res role name).title = res.title := by
  unfold step700autor; split <;> rfl

theorem step700chain_title (res : ReadableRecord) (role name : String) :
    (step700chain res role name).title = res.title := by
  unfold step700chain; split_ifs <;> rfl

theorem step700one_title (res : ReadableRecord) (f : MarcField) :
    (step700one res f).title = res.title := by
  unfold step700one
  dsimp only
  split_ifs <;> first | rfl | rw [step700chain_title, step700autor_title]

theorem foldl700_title (l : List MarcField) :
    ∀ res : ReadableRecord, (l.foldl step700one res).title = res.title := by
  induction l with
  | nil => intro res; rfl
  | cons f t ih => intro res; rw [List.foldl_cons, ih, step700one_title]

theorem step700autor_subtitle (res : ReadableRecord) (role name : String) :
    (step700autor res role name).subtitle = res.subtitle := by
  unfold step700autor; split <;> rfl

theorem step700chain_subtitle (res : ReadableRecord) (role name : String) :
    (step700chain res role name).subtitle = res.subtitle := by
  unfold step700chain; split_ifs <;> rfl

theorem step700one_subtitle (res : ReadableRecord) (f : MarcField) :
    (step700one res f).subtitle = res.subtitle := by
  unfold step700one
  dsimp only
  split_ifs <;> first | rfl | rw [step700chain_subtitle, step700autor_subtitle]

theorem foldl700_subtitle (l : List MarcField) :
    ∀ res : ReadableRecord, (l.foldl step700one res).subtitle = res.subtitle := by
  induction l with
  | nil => intro res; rfl
  | cons f t ih => intro res; rw [List.foldl_cons, ih, step700one_subtitle]

theorem step700autor_part_number (res : ReadableRecord) (role name : String) :
    (step700autor res role name).part_number = res.part_number := by
  unfold step700autor; split <;> rfl

theorem step700chain_part_number (res : ReadableRecord) (role name : String) :
    (step700chain res role name).part_number = res.part_number := by
  unfold step700chain; split_ifs <;> rfl

theorem step700one_part_number (res : ReadableRecord) (f : MarcField) :
    (step700one res f).part_number = res.part_number := by
  unfold step700one
  dsimp only
  split_ifs <;> first | rfl | rw [step700chain_part_number, step700autor_part_number]

theorem foldl700_part_number (l : List MarcField) :
    ∀ res : ReadableRecord, (l.foldl step700one res).part_number = res.part_number := by
  induction l with
  | nil => intro res; rfl
  | cons f t ih => intro res; rw [List.foldl_cons, ih, step700one_part_number]

theorem step700autor_part_name (res : ReadableRecord) (role name : String) :
    (step700autor res role name).part_name = res.part_name := by
  unfold step700autor; split <;> rfl

theorem step700chain_part_name (res : ReadableRecord) (role name : String) :
    (step700chain res role name).part_name = res.part_name := by
  unfold step700chain; split_ifs <;> rfl

theorem step700one_part_name (res : ReadableRecord) (f : MarcField) :
    (step700one res f).part_name = res.part_name := by
  unfold step700one
  dsimp only
  split_ifs <;> first | rfl | rw [step700chain_part_name, step700autor_part_name]

theorem foldl700_part_name (l : List MarcField) :
    ∀ res : ReadableRecord, (l.foldl step700one res).part_name = res.part_name := by
  induction l with
  | nil => intro res; rfl
  | cons f t ih => intro res; rw [List.foldl_cons, ih, step700one_part_name]

theorem step700autor_edition (res : ReadableRecord) (role name : String) :
    (step700autor res role name).edition = res.edition := by
  unfold step700autor; split <;> rfl

theorem step700chain_edition (res : ReadableRecord) (role name : String) :
    (step700chain res role name).edition = res.edition := by
  unfold step700chain; split_ifs <;> rfl

theorem step700one_edition (res : ReadableRecord) (f : MarcField) :
    (step700one res f).edition = res.edition := by
  unfold step700one
  dsimp only
  split_ifs <;> first | rfl | rw [step700chain_edition, step700autor_edition]

theorem foldl700_edition (l : List MarcField) :
    ∀ res : ReadableRecord, (l.foldl step700one res).edition = res.edition := by
  induction l with
  | nil => intro res; rfl
  | cons f t ih => intro res; rw [List.foldl_cons, ih, step700one_edition]

theorem step700autor_publisher (res : ReadableRecord) (role name : String) :
    (step700autor res role name).publisher = res.publisher := by
  unfold step700autor; split <;> rfl

theorem step700chain_publisher (res : ReadableRecord) (role name : String) :
    (step700chain res role name).publisher = res.publisher := by
  unfold step700chain; split_ifs <;> rfl

theorem step700one_publisher (res : ReadableRecord) (f : MarcField) :
    (step700one res f).publisher = res.publisher := by
  unfold step700one
  dsimp only
  split_ifs <;> first | rfl | rw [step700chain_publisher, step700autor_publisher]

theorem foldl700_publisher (l : List MarcField) :
    ∀ res : ReadableRecord, (l.foldl step700one res).publisher = res.publisher := by
  induction l with
  | nil => intro res; rfl
  | cons f t ih => intro res; rw [List.foldl_cons, ih, step700one_publisher]

theorem step700autor_year_published (res : ReadableRecord) (role name : String) :
    (step700autor res role name).year_published = res.year_published := by
  unfold step700autor; split <;> rfl

theorem step700chain_year_published (res : ReadableRecord) (role name : String) :
    (step700chain res role name).year_published = res.year_published := by
  unfold step700chain; split_ifs <;> rfl

theorem step700one_year_published (res : ReadableRecord) (f : MarcField) :
    (step700one res f).year_published = res.year_published := by
  unfold step700one
  dsimp only
  split_ifs <;> first | rfl | rw [step700chain_year_published, step700autor_year_published]

theorem foldl700_year_published (l : List MarcField) :
    ∀ res : ReadableRecord, (l.foldl step700one res).year_published = res.year_published := by
  induction l with
  | nil => intro res; rfl
  | cons f t ih => intro res; rw [List.foldl_cons, ih, step700one_year_published]

theorem step700autor_city_published (res : ReadableRecord) (role name : String) :
    (step700autor res role name).city_published = res.city_published := by
  unfold step700autor; split <;> rfl

theorem step700chain_city_published (res : ReadableRecord) (role name : String) :
    (step700chain res role name).city_published = res.city_published := by
  unfold step700chain; split_ifs <;> rfl

theorem step700one_city_published (res : ReadableRecord) (f : MarcField) :
    (step700one res f).city_published = res.city_published := by
  unfold step700one
  dsimp only
  split_ifs <;> first | rfl | rw [step700chain_city_published, step700autor_city_published]

theorem foldl700_city_published (l : List MarcField) :
    ∀ res : ReadableRecord, (l.foldl step700one res).city_published = res.city_published := by
  induction l with
  | nil => intro res; rfl
  | cons f t ih => intro res; rw [List.foldl_cons, ih, step700one_city_published]

theorem step700autor_num_pages (res : ReadableRecord) (role name : String) :
    (step700autor res role name).num_pages = res.num_pages := by
  unfold step700autor; split <;> rfl

theorem step700chain_num_pages (res : ReadableRecord) (role name : String) :
    (step700chain res role name).num_pages = res.num_pages := by
  unfold step700chain; split_ifs <;> rfl

theorem step700one_num_pages (res : ReadableRecord) (f : MarcField) :
    (step700one res f).num_pages = res.num_pages := by
  unfold step700one
  dsimp only
  split_ifs <;> first | rfl | rw [step700chain_num_pages, step700autor_num_pages]

theorem foldl700_num_pages (l : List MarcField) :
    ∀ res : ReadableRecord, (l.foldl step700one res).num_pages = res.num_pages := by
  induction l with
  | nil => intro res; rfl
  | cons f t ih => intro res; rw [List.foldl_cons, ih, step700one_num_pages]

theorem step700autor_isbn (res : ReadableRecord) (role name : String) :
    (step700autor res role name).isbn = res.isbn := by
  unfold step700autor; split <;> rfl

theorem step700chain_isbn (res : ReadableRecord) (role name : String) :
    (step700chain res role name).isbn = res.isbn := by
  unfold step700chain; split_ifs <;> rfl

theorem step700one_isbn (res : ReadableRecord) (f : MarcField) :
    (step700one res f).isbn = res.isbn := by
  unfold step700one
  dsimp only
  split_ifs <;> first | rfl | rw [step700chain_isbn, step700autor_isbn]

theorem foldl700_isbn (l : List MarcField) :
    ∀ res : ReadableRecord, (l.foldl step700one res).isbn = res.isbn := by
  induction l with
  | nil => intro res; rfl
  | cons f t ih => intro res; rw [List.foldl_cons, ih, step700one_isbn]

theorem step700autor_series (res : ReadableRecord) (role name : String) :
    (step700autor res role name).series = res.series := by
  unfold step700autor; split <;> rfl

theorem step700chain_series (res : ReadableRecord) (role name : String) :
    (step700chain res role name).series = res.series := by
  unfold step700chain; split_ifs <;> rfl

theorem step700one_series (res : ReadableRecord) (f : MarcField) :
    (step700one res f).series = res.series := by
  unfold step700one
  dsimp only
  split_ifs <;> first | rfl | rw [step700chain_series, step700autor_series]

theorem foldl700_series (l : List MarcField) :
    ∀ res : ReadableRecord, (l.foldl step700one res).series = res.series := by
  induction l with
  | nil => intro res; rfl
  | cons f t ih => intro res; rw [List.foldl_cons, ih, step700one_series]

theorem step700autor_series_number (res : ReadableRecord) (role name : String) :
    (step700autor res role name).series_number = res.series_number := by
  unfold step700autor; split <;> rfl

theorem step700chain_series_number (res : ReadableRecord) (role name : String) :
    (step700chain res role name).series_number = res.series_number := by
  unfold step700chain; split_ifs <;> rfl

theorem step700one_series_number (res : ReadableRecord) (f : MarcField) :
    (step700one res f).series_number = res.series_number := by
  unfold step700one
  dsimp only
  split_ifs <;> first | rfl | rw [step700chain_series_number, step700autor_series_number]

theorem foldl700_series_number (l : List MarcField) :
    ∀ res : ReadableRecord, (l.foldl step700one res).series_number = res.series_number := by
  induction l with
  | nil => intro res; rfl
  | cons f t ih => intro res; rw [List.foldl_cons, ih, step700one_series_number]

theorem step700autor_dimensions (res : ReadableRecord) (role name : String) :
    (step700autor res role name).dimensions = res.dimensions := by
  unfold step700autor; split <;> rfl

theorem step700chain_dimensions (res : ReadableRecord) (role name : String) :
    (step700chain res role name).dimensions = res.dimensions := by
  unfold step700chain; split_ifs <;> rfl

theorem step700one_dimensions (res : ReadableRecord) (f : MarcField) :
    (step700one res f).dimensions = res.dimensions := by
  unfold step700one
  dsimp only
  split_ifs <;> first | rfl | rw [step700chain_dimensions, step700autor_dimensions]

theorem foldl700_dimensions (l : List MarcField) :
    ∀ res : ReadableRecord, (l.foldl step700one res).dimensions = res.dimensions := by
  induction l with
  | nil => intro res; rfl
  | cons f t ih => intro res; rw [List.foldl_cons, ih, step700one_dimensions]

theorem step700autor_language (res : ReadableRecord) (role name : String) :
    (step700autor res role name).language = res.language := by
  unfold step700autor; split <;> rfl

theorem step700chain_language (res : ReadableRecord) (role name : String) :
    (step700chain res role name).language = res.language := by
  unfold step700chain; split_ifs <;> rfl

theorem step700one_language (res : ReadableRecord) (f : MarcField) :
    (step700one res f).language = res.language := by
  unfold step700one
  dsimp only
  split_ifs <;> first | rfl | rw [step700chain_language, step700autor_language]

theorem foldl700_language (l : List MarcField) :
    ∀ res : ReadableRecord, (l.foldl step700one res).language = res.language := by
  induction l with
  | nil => intro res; rfl
  | cons f t ih => intro res; rw [List.foldl_cons, ih, step700one_language]

theorem step700autor_original_language (res : ReadableRecord) (role name : String) :
    (step700autor res role name).original_language = res.original_language := by
  unfold step700autor; split <;> rfl

theorem step700chain_original_language (res : ReadableRecord) (role name : String) :
    (step700chain res role name).original_language = res.original_language := by
  unfold step700chain; split_ifs <;> rfl

theorem step700one_original_language (res : ReadableRecord) (f : MarcField) :
    (step700one res f).original_language = res.original_language := by
  unfold step700one
  dsimp only
  split_ifs <;> first | rfl | rw [step700chain_original_language, step700autor_original_language]

theorem foldl700_original_language (l : List MarcField) :
    ∀ res : ReadableRecord, (l.foldl step700one res).original_language = res.original_language := by
  induction l with
  | nil => intro res; rfl
  | cons f t ih => intro res; rw [List.foldl_cons, ih, step700one_original_language]

theorem step700autor_genres (res : ReadableRecord) (role name : String) :
    (step700autor res role name).genres = res.genres := by
  unfold step700autor; split <;> rfl

theorem step700chain_genres (res : ReadableRecord) (role name : String) :
    (step700chain res role name).genres = res.genres := by
  unfold step700chain; split_ifs <;> rfl

theorem step700one_genres (res : ReadableRecord) (f : MarcField) :
    (step700one res f).genres = res.genres := by
  unfold step700one
  dsimp only
  split_ifs <;> first | rfl | rw [step700chain_genres, step700autor_genres]

theorem foldl700_genres (l : List MarcField) :
    ∀ res : ReadableRecord, (l.foldl step700one res).genres = res.genres := by
  induction l with
  | nil => intro res; rfl
  | cons f t ih => intro res; rw [List.foldl_cons, ih, step700one_genres]


/-! ## Helper lemmas: projections of `build` -/

theorem build_ester_id (record : MarcRecord) (eid : String) :
    (build record eid).ester_id = eid := by
  unfold build step700
  rw [foldl700_ester_id]
  rfl

theorem build_title (record : MarcRecord) (eid : String) :
    (build record eid).title = titleVal record "" := by
  unfold build step700
  rw [foldl700_title]
  rfl

theorem build_subtitle (record : MarcRecord) (eid : String) :
    (build record eid).subtitle = subtitleVal record "" := by
  unfold build step700
  rw [foldl700_subtitle]
  rfl

theorem build_part_number (record : MarcRecord) (eid : String) :
    (build record eid).part_number = part_numberVal record "" := by
  unfold build step700
  rw [foldl700_part_number]
  rfl

theorem build_part_name (record : MarcRecord) (eid : String) :
    (build record eid).part_name = part_nameVal record "" := by
  unfold build step700
  rw [foldl700_part_name]
  rfl

theorem build_edition (record : MarcRecord) (eid : String) :
    (build record eid).edition = editionVal record "" := by
  unfold build step700
  rw [foldl700_edition]
  rfl

theorem build_publisher (record : MarcRecord) (eid : String) :
    (build record eid).publisher = publisherVal record "" := by
  unfold build step700
  rw [foldl700_publisher]
  rfl

theorem build_year_published (record : MarcRecord) (eid : String) :
    (build record eid).year_published = yearVal record none := by
  unfold build step700
  rw [foldl700_year_published]
  rfl

theorem build_city_published (record : MarcRecord) (eid : String) :
    (build record eid).city_published = cityVal record "" := by
  unfold build step700
  rw [foldl700_city_published]
  rfl

theorem build_num_pages (record : MarcRecord) (eid : String) :
    (build record eid).num_pages = numPagesVal record none := by
  unfold build step700
  rw [foldl700_num_pages]
  rfl

theorem build_isbn (record : MarcRecord) (eid : String) :
    (build record eid).isbn = isbnVal record "" := by
  unfold build step700
  rw [foldl700_isbn]
  rfl

theorem build_series (record : MarcRecord) (eid : String) :
    (build record eid).series = seriesVal record "" := by
  unfold build step700
  rw [foldl700_series]
  rfl

theorem build_series_number (record : MarcRecord) (eid : String) :
    (build record eid).series_number = series_numberVal record "" := by
  unfold build step700
  rw [foldl700_series_number]
  rfl

theorem build_dimensions (record : MarcRecord) (eid : String) :
    (build record eid).dimensions = dimensionsVal record "" := by
  unfold build step700
  rw [foldl700_dimensions]
  rfl

theorem build_language (record : MarcRecord) (eid : String) :
    (build record eid).language = languageVal record "" := by
  unfold build step700
  rw [foldl700_language]
  rfl

theorem build_original_language (record : MarcRecord) (eid : String) :
    (build record eid).original_language = original_languageVal record "" := by
  unfold build step700
  rw [foldl700_original_language]
  rfl

theorem build_genres (record : MarcRecord) (eid : String) :
    (build record eid).genres = genresVal record [] := by
  unfold build step700
  rw [foldl700_genres]
  rfl


/-! ## Helper lemmas: inverting and evaluating `convertRecord` -/

theorem convertRecord_ok_build {skip : Bool} {r : MarcRecord}
    {out : ReadableRecord} {tr : List String}
    (h : convertRecord skip r = .ok (some out, tr)) :
    ∃ f001, r.get "001" = some f001 ∧ out = build r f001.value ∧
      tr = printsVal r f001.value := by
  unfold convertRecord at h
  cases hg : r.get "001" with
  | none => rw [hg] at h; cases h
  | some f001 =>
    rw [hg] at h
    refine ⟨f001, rfl, ?_⟩
    cases hf : digitalFilter skip r with
    | error e => rw [hf] at h; cases h
    | ok b =>
      rw [hf] at h
      cases b with
      | true => simp at h
      | false =>
        simp only [Except.ok.injEq, Prod.mk.injEq, Option.some.injEq] at h
        exact ⟨h.1.symm, h.2.symm⟩

theorem convertRecord_false_eq (r : MarcRecord) (f001 : MarcField)
    (h : r.get "001" = some f001) :
    convertRecord false r =
      .ok (some (build r f001.value), printsVal r f001.value) := by
  unfold convertRecord
  rw [h]
  rfl

theorem convertRecord_true_eq (r : MarcRecord) (f001 f008 : MarcField)
    (h1 : r.get "001" = some f001) (h2 : r.get "008" = some f008)
    (hlen : 23 < f008.value.data.length) :
    convertRecord true r =
      if f008.value.data.get ⟨23, hlen⟩ = 'q' ∨ f008.value.data.get ⟨23, hlen⟩ = 's'
      then .ok (none, [])
      else .ok (some (build r f001.value), printsVal r f001.value) := by
  have hdf : digitalFilter true r =
      .ok (decide (f008.value.data.get ⟨23, hlen⟩ = 'q') ||
        decide (f008.value.data.get ⟨23, hlen⟩ = 's')) := by
    have hstep : digitalFilter true r =
        (match r.get "008" with
         | none => Except.error PyErr.attributeError
         | some g =>
           if h : 23 < g.value.data.length then
             Except.ok (decide (g.value.data.get ⟨23, h⟩ = 'q') ||
               decide (g.value.data.get ⟨23, h⟩ = 's'))
           else Except.error PyErr.indexError) := rfl
    rw [hstep, h2]
    show (if h : 23 < f008.value.data.length then
        Except.ok (decide (f008.value.data.get ⟨23, h⟩ = 'q') ||
          decide (f008.value.data.get ⟨23, h⟩ = 's'))
      else Except.error PyErr.indexError) =
      Except.ok (decide (f008.value.data.get ⟨23, hlen⟩ = 'q') ||
        decide (f008.value.data.get ⟨23, hlen⟩ = 's'))
    rw [dif_pos hlen]
  have hcv : convertRecord true r =
      (match digitalFilter true r with
       | Except.error e => Except.error e
       | Except.ok true => Except.ok (none, [])
       | Except.ok false =>
         Except.ok (some (build r f001.value), printsVal r f001.value)) := by
    unfold convertRecord
    rw [h1]
  rw [hcv, hdf]
  by_cases hqs : f008.value.data.get ⟨23, hlen⟩ = 'q' ∨ f008.value.data.get ⟨23, hlen⟩ = 's'
  · rw [if_pos hqs]
    have hb : (decide (f008.value.data.get ⟨23, hlen⟩ = 'q') ||
        decide (f008.value.data.get ⟨23, hlen⟩ = 's')) = true := by
      rcases hqs with h | h <;> rw [h] <;> rfl
    rw [hb]
  · rw [if_neg hqs]
    push_neg at hqs
    have hb : (decide (f008.value.data.get ⟨23, hlen⟩ = 'q') ||
        decide (f008.value.data.get ⟨23, hlen⟩ = 's')) = false := by
      rw [decide_eq_false hqs.1, decide_eq_false hqs.2]
      rfl
    rw [hb]

/-! ## Helper lemmas: the author list has no duplicates -/

theorem step700chain_authors (res : ReadableRecord) (role name : String) :
    (step700chain res role name).authors = res.authors := by
  unfold step700chain; split_ifs <;> rfl

theorem step700autor_nodup (res : ReadableRecord) (role name : String)
    (h : res.authors.Nodup) : (step700autor res role name).authors.Nodup := by
  unfold step700autor
  split
  · next hc =>
    simp only [List.nodup_append, List.nodup_cons, List.not_mem_nil,
      not_false_iff, List.nodup_nil, and_true, true_and]
    refine ⟨h, ?_⟩
    intro a ha hmem
    rw [List.mem_singleton] at hmem
    exact hc.2 (hmem ▸ ha)
  · exact h

theorem step700one_nodup (res : ReadableRecord) (f : MarcField)
    (h : res.authors.Nodup) : (step700one res f).authors.Nodup := by
  unfold step700one
  dsimp only
  split_ifs <;>
    first
      | exact h
      | (rw [step700chain_authors]; exact step700autor_nodup res _ _ h)

theorem foldl700_nodup (l : List MarcField) :
    ∀ res : ReadableRecord, res.authors.Nodup →
      (l.foldl step700one res).authors.Nodup := by
  induction l with
  | nil => intro res h; exact h
  | cons f t ih =>
    intro res h
    rw [List.foldl_cons]
    exact ih _ (step700one_nodup res f h)

theorem build_authors_nodup (record : MarcRecord) (eid : String) :
    (build record eid).authors.Nodup := by
  unfold build step700
  apply foldl700_nodup
  show (authors100Val record []).Nodup
  unfold authors100Val
  dsimp only
  split
  · exact List.nodup_nil
  · simp

theorem marcxml_error_of_missing_id (records : List MarcRecord) (skip : Bool)
    (h : ∃ r ∈ records, r.get "001" = none) :
    ∃ e, marcxml_to_readable records skip = .error e := by
  induction records with
  | nil =>
    obtain ⟨r, hr, -⟩ := h
    cases hr
  | cons r0 rest ih =>
    obtain ⟨r, hr, hid⟩ := h
    rcases List.mem_cons.mp hr with rfl | hr0
    · have hc : convertRecord skip r = .error .attributeError := by
        unfold convertRecord
        rw [hid]
      refine ⟨.attributeError, ?_⟩
      unfold marcxml_to_readable
      rw [hc]
    · cases hc : convertRecord skip r0 with
      | error e =>
        refine ⟨e, ?_⟩
        unfold marcxml_to_readable
        rw [hc]
      | ok p =>
        obtain ⟨o, tr⟩ := p
        obtain ⟨e, he⟩ := ih ⟨r, hr0, hid⟩
        refine ⟨e, ?_⟩
        unfold marcxml_to_readable
        rw [hc]
        dsimp only
        rw [he]

/-! ## Claims -/

/-- Claim C1 (counterexample): the single-value cleanup is not idempotent on
every input.  For the input `"x[a[b]c]y"` the cleaned value is `"xa[bc]y"`,
which still contains a bracketed substring, and cleaning it again yields
`"xabcy"`. -/
theorem C1_cleanup_not_idempotent :
    cleanString (cleanString "x[a[b]c]y") ≠ cleanString "x[a[b]c]y" := by
  decide

/-- Claim C1 (amended): the single-value cleanup is idempotent on every
input string whose cleaned result contains no remaining bracketed substring
`[X]` (equivalently, on which the bracket substitution is a no-op); such a
remainder can arise only from nested brackets in the original input. -/
theorem C1_cleanup_idempotent (s : String)
    (hb : bracketSub (cleanString s).data = (cleanString s).data) :
    cleanString (cleanString s) = cleanString s := by
  have h := cleanChars_fixpoint s.data hb
  exact congrArg String.mk h

/-- Claim C1 (witness): the amended idempotence applied to the concrete
input `"a [b] c"`, whose cleaned value `"a b c"` is bracket-free. -/
theorem C1_witness :
    bracketSub (cleanString "a [b] c").data = (cleanString "a [b] c").data ∧
      cleanString (cleanString "a [b] c") = cleanString "a [b] c" :=
  ⟨by decide, C1_cleanup_idempotent "a [b] c" (by decide)⟩

/-- Claim C2 (counterexample): the multi-value cleanup does not skip entries
that clean to the empty string — a 245 field with one part-number subfield
`" , "` yields the list `[""]`, which contains the empty string. -/
theorem C2_empty_entry_in_output :
    get_stripped_subfields fldEmptyPart 'n' = [""] ∧
      "" ∈ get_stripped_subfields fldEmptyPart 'n' :=
  ⟨by decide, by decide⟩

/-- Claim C2 (amended): for every field and subfield code, the multi-value
cleanup returns exactly the ordered list of cleaned occurrences (duplicates
preserved), including the entries that clean to the empty string. -/
theorem C2_multi_cleanup_is_map (f : MarcField) (code : Char) :
    get_stripped_subfields f code = (f.get_subfields code).map cleanString := by
  unfold get_stripped_subfields
  dsimp only
  split
  · rfl
  · next h =>
    cases hv : f.get_subfields code with
    | nil => rfl
    | cons a t =>
      rw [hv] at h
      simp at h

/-- Claim C4: the output identifier is copied verbatim (uncleaned) from the
input's 001 control field, and the presence of a record without that field
makes the whole conversion of the source fail with an error, producing no
output list. -/
theorem C4_identifier_verbatim_or_error :
    (∀ (skip : Bool) (r : MarcRecord) (out : ReadableRecord) (tr : List String),
        convertRecord skip r = .ok (some out, tr) →
        ∃ f001, r.get "001" = some f001 ∧ out.ester_id = f001.value)
  ∧ (∀ (records : List MarcRecord) (skip : Bool),
        (∃ r ∈ records, r.get "001" = none) →
        ∃ e, marcxml_to_readable records skip = .error e) := by
  constructor
  · intro skip r out tr h
    obtain ⟨f001, hg, hout, -⟩ := convertRecord_ok_build h
    exact ⟨f001, hg, by rw [hout, build_ester_id]⟩
  · intro records skip h
    exact marcxml_error_of_missing_id records skip h

/-- Claim C4 (witness): the identifier of the record built from `recIdOnly`
is its 001 value, and a singleton list containing a record without a 001
field converts to an error. -/
theorem C4_witness :
    (∃ f001, MarcRecord.get recIdOnly "001" = some f001 ∧
        (build recIdOnly "b555").ester_id = f001.value) ∧
      ∃ e, marcxml_to_readable [recNo001] false = .error e := by
  constructor
  · exact C4_identifier_verbatim_or_error.1 false recIdOnly
      (build recIdOnly "b555") (printsVal recIdOnly "b555") rfl
  · exact C4_identifier_verbatim_or_error.2 [recNo001] false
      ⟨recNo001, List.mem_singleton_self recNo001, rfl⟩

/-- Claim C6: in every successfully converted record, each name occurs
exactly once in the author list — in particular a person named both in the
100 field and in a 700 field with role `autor` is not duplicated. -/
theorem C6_authors_no_duplicates (skip : Bool) (r : MarcRecord)
    (out : ReadableRecord) (tr : List String)
    (h : convertRecord skip r = .ok (some out, tr)) (a : String)
    (ha : a ∈ out.authors) : out.authors.count a = 1 := by
  obtain ⟨f001, -, hout, -⟩ := convertRecord_ok_build h
  subst hout
  exact List.count_eq_one_of_mem (build_authors_nodup r f001.value) ha

/-- Claim C6 (witness): `recDupAuthor` names Jaan Tamm both as the primary
100 author and as a 700 contributor with role `autor`; the output author
list contains the name exactly once. -/
theorem C6_witness : outDupAuthor.authors.count "Jaan Tamm" = 1 :=
  C6_authors_no_duplicates false recDupAuthor outDupAuthor
    (printsVal recDupAuthor "b1") rfl "Jaan Tamm" (by decide)

/-- Claim C9 (code evaluation): the mapper is not free of output effects —
for a record whose identifier contains `b14256381` and that has a 245
field, the conversion emits the debug line `The subtitle is ...`, a
non-empty print trace. -/
theorem C9_debug_print_fires :
    (∃ out, convertRecord false recDebugPrint =
        .ok (some out, ["The subtitle is Sub"])) ∧
      ("The subtitle is Sub" :: ([] : List String)) ≠ [] :=
  ⟨⟨build recDebugPrint "b14256381", rfl⟩, by decide⟩

/-- Claim C10: a record whose 008 value is shorter than 38 characters is
still converted without error; the language field is the (possibly shorter
than 3 characters, possibly empty) substring of the 008 value from position
35 to the end. -/
theorem C10_short_008_language (r : MarcRecord) (f001 f008 : MarcField)
    (h001 : r.get "001" = some f001) (h008 : r.get "008" = some f008)
    (hlen : f008.value.data.length < 38) :
    ∃ out tr, convertRecord false r = .ok (some out, tr) ∧
      out.language.data = f008.value.data.drop 35 := by
  refine ⟨_, _, convertRecord_false_eq r f001 h001, ?_⟩
  rw [build_language]
  unfold languageVal
  rw [h008]
  show (f008.value.data.drop 35).take 3 = f008.value.data.drop 35
  apply List.take_of_length_le
  rw [List.length_drop]
  omega

/-- Claim C10 (witness): `recShort008` has an 008 value of length 36; the
conversion succeeds and the language field is the single character at
position 35. -/
theorem C10_witness :
    ∃ out tr, convertRecord false recShort008 = Except.ok (some out, tr) ∧
      out.language.data = ['x'] := by
  obtain ⟨out, tr, hok, hlang⟩ := C10_short_008_language recShort008
    ⟨"001", "b4", []⟩ ⟨"008", "                                   x", []⟩
    rfl rfl (by decide)
  exact ⟨out, tr, hok, hlang.trans (by decide)⟩

/-- Claim C5: for a 700 field with non-empty cleaned role (subfield `e`,
falling back to `4`) and non-empty cleaned name, the lower-cased role is
dispatched by exact string equality to exactly one of the eight role lists;
a role that is not exactly equal to one of the eight terms (in particular
one merely containing a term as a proper substring) contributes nothing. -/
theorem C5_role_dispatch (res : ReadableRecord) (f : MarcField)
    (hrole : roleOf f ≠ "") (hname : nameOf f ≠ "") :
    (pyLowerStr (roleOf f) ∉ roleTerms → step700one res f = res)
  ∧ (pyLowerStr (roleOf f) = "autor" →
      step700one res f =
        if reverse_name (nameOf f) ∈ res.authors then res
        else { res with authors := res.authors ++ [reverse_name (nameOf f)] })
  ∧ (pyLowerStr (roleOf f) = "toimetaja" →
      step700one res f =
        { res with editors := res.editors ++ [reverse_name (nameOf f)] })
  ∧ (pyLowerStr (roleOf f) = "väljaandja" →
      step700one res f =
        { res with publishers := res.publishers ++ [reverse_name (nameOf f)] })
  ∧ (pyLowerStr (roleOf f) = "koostaja" →
      step700one res f =
        { res with compilers := res.compilers ++ [reverse_name (nameOf f)] })
  ∧ (pyLowerStr (roleOf f) = "illustreerija" →
      step700one res f =
        { res with illustrators := res.illustrators ++ [reverse_name (nameOf f)] })
  ∧ (pyLowerStr (roleOf f) = "tõlkija" →
      step700one res f =
        { res with translators := res.translators ++ [reverse_name (nameOf f)] })
  ∧ (pyLowerStr (roleOf f) = "kujundaja" →
      step700one res f =
        { res with designers := res.designers ++ [reverse_name (nameOf f)] })
  ∧ (pyLowerStr (roleOf f) = "fotograaf" →
      step700one res f =
        { res with photographers := res.photographers ++ [reverse_name (nameOf f)] }) := by
  have hstep : step700one res f =
      step700chain (step700autor res (pyLowerStr (roleOf f)) (reverse_name (nameOf f)))
        (pyLowerStr (roleOf f)) (reverse_name (nameOf f)) := by
    unfold step700one roleOf nameOf at *
    dsimp only
    rw [if_neg]
    rintro (h | h)
    · exact hrole h
    · exact hname h
  refine ⟨?_, ?_, ?_, ?_, ?_, ?_, ?_, ?_, ?_⟩
  · intro hns
    simp only [roleTerms, List.mem_cons, List.not_mem_nil, or_false, not_or] at hns
    obtain ⟨h1, h2, h3, h4, h5, h6, h7, h8⟩ := hns
    have ha : step700autor res (pyLowerStr (roleOf f)) (reverse_name (nameOf f)) = res := by
      unfold step700autor
      rw [if_neg (fun hc => h1 hc.1)]
    rw [hstep, ha]
    unfold step700chain
    rw [if_neg h2, if_neg h3, if_neg h4, if_neg h5, if_neg h6, if_neg h7, if_neg h8]
  · intro ht
    rw [hstep, ht]
    have hchain : ∀ x : ReadableRecord,
        step700chain x "autor" (reverse_name (nameOf f)) = x := by
      intro x
      unfold step700chain
      rw [if_neg (by decide : ¬("autor" = "toimetaja")),
        if_neg (by decide : ¬("autor" = "väljaandja")),
        if_neg (by decide : ¬("autor" = "koostaja")),
        if_neg (by decide : ¬("autor" = "illustreerija")),
        if_neg (by decide : ¬("autor" = "tõlkija")),
        if_neg (by decide : ¬("autor" = "kujundaja")),
        if_neg (by decide : ¬("autor" = "fotograaf"))]
    rw [hchain]
    unfold step700autor
    by_cases hmem : reverse_name (nameOf f) ∈ res.authors
    · rw [if_pos hmem, if_neg (fun hc => hc.2 hmem)]
    · rw [if_neg hmem, if_pos ⟨rfl, hmem⟩]
  · intro ht
    rw [hstep, ht]
    have ha : step700autor res "toimetaja" (reverse_name (nameOf f)) = res := by
      unfold step700autor
      rw [if_neg (fun hc => absurd hc.1 (by decide))]
    rw [ha]
    unfold step700chain
    rw [if_pos rfl]
  · intro ht
    rw [hstep, ht]
    have ha : step700autor res "väljaandja" (reverse_name (nameOf f)) = res := by
      unfold step700autor
      rw [if_neg (fun hc => absurd hc.1 (by decide))]
    rw [ha]
    unfold step700chain
    rw [if_neg (by decide : ¬("väljaandja" = "toimetaja")),
        if_pos rfl]
  · intro ht
    rw [hstep, ht]
    have ha : step700autor res "koostaja" (reverse_name (nameOf f)) = res := by
      unfold step700autor
      rw [if_neg (fun hc => absurd hc.1 (by decide))]
    rw [ha]
    unfold step700chain
    rw [if_neg (by decide : ¬("koostaja" = "toimetaja")),
        if_neg (by decide : ¬("koostaja" = "väljaandja")),
        if_pos rfl]
  · intro ht
    rw [hstep, ht]
    have ha : step700autor res "illustreerija" (reverse_name (nameOf f)) = res := by
      unfold step700autor
      rw [if_neg (fun hc => absurd hc.1 (by decide))]
    rw [ha]
    unfold step700chain
    rw [if_neg (by decide : ¬("illustreerija" = "toimetaja")),
        if_neg (by decide : ¬("illustreerija" = "väljaandja")),
        if_neg (by decide : ¬("illustreerija" = "koostaja")),
        if_pos rfl]
  · intro ht
    rw [hstep, ht]
    have ha : step700autor res "tõlkija" (reverse_name (nameOf f)) = res := by
      unfold step700autor
      rw [if_neg (fun hc => absurd hc.1 (by decide))]
    rw [ha]
    unfold step700chain
    rw [if_neg (by decide : ¬("tõlkija" = "toimetaja")),
        if_neg (by decide : ¬("tõlkija" = "väljaandja")),
        if_neg (by decide : ¬("tõlkija" = "koostaja")),
        if_neg (by decide : ¬("tõlkija" = "illustreerija")),
        if_pos rfl]
  · intro ht
    rw [hstep, ht]
    have ha : step700autor res "kujundaja" (reverse_name (nameOf f)) = res := by
      unfold step700autor
      rw [if_neg (fun hc => absurd hc.1 (by decide))]
    rw [ha]
    unfold step700chain
    rw [if_neg (by decide : ¬("kujundaja" = "toimetaja")),
        if_neg (by decide : ¬("kujundaja" = "väljaandja")),
        if_neg (by decide : ¬("kujundaja" = "koostaja")),
        if_neg (by decide : ¬("kujundaja" = "illustreerija")),
        if_neg (by decide : ¬("kujundaja" = "tõlkija")),
        if_pos rfl]
  · intro ht
    rw [hstep, ht]
    have ha : step700autor res "fotograaf" (reverse_name (nameOf f)) = res := by
      unfold step700autor
      rw [if_neg (fun hc => absurd hc.1 (by decide))]
    rw [ha]
    unfold step700chain
    rw [if_neg (by decide : ¬("fotograaf" = "toimetaja")),
        if_neg (by decide : ¬("fotograaf" = "väljaandja")),
        if_neg (by decide : ¬("fotograaf" = "koostaja")),
        if_neg (by decide : ¬("fotograaf" = "illustreerija")),
        if_neg (by decide : ¬("fotograaf" = "tõlkija")),
        if_neg (by decide : ¬("fotograaf" = "kujundaja")),
        if_pos rfl]

/-- Claim C5 (witness): a 700 field whose role cleans to
`"suur koostaja abi"` (containing `koostaja` as a proper substring)
contributes nothing, while one cleaning and lower-casing to exactly
`"koostaja"` adds the reordered name to the compiler list. -/
theorem C5_witness :
    step700one resEmpty fldRoleSubstring = resEmpty ∧
      step700one resEmpty fldRoleExact =
        { resEmpty with compilers := ["Mari Kask"] } := by
  constructor
  · exact (C5_role_dispatch resEmpty fldRoleSubstring (by decide) (by decide)).1
      (by decide)
  · have h := (C5_role_dispatch resEmpty fldRoleExact (by decide)
      (by decide)).2.2.2.2.1 (by decide)
    rw [h]
    decide

/-- Claim C7 (counterexample): the claim quantifies over every record with a
sufficiently long 008 field, but a record that lacks the mandatory 001
identifier field is not converted to an output record even with
`skip_digital` disabled — the conversion raises instead. -/
theorem C7_claim_fails_without_identifier :
    (∃ f008, MarcRecord.get recDigitalNoId "008" = some f008 ∧
        24 ≤ f008.value.data.length ∧ f008.value.data.get? 23 = some 'q') ∧
      convertRecord false recDigitalNoId = .error PyErr.attributeError ∧
      ∀ out tr, convertRecord false recDigitalNoId ≠ .ok (some out, tr) := by
  refine ⟨⟨⟨"008", "                       q", []⟩, rfl, by decide, by decide⟩,
    rfl, ?_⟩
  intro out tr hc
  rw [show convertRecord false recDigitalNoId = .error PyErr.attributeError
    from rfl] at hc
  cases hc

/-- Claim C7 (amended): for every record that has the mandatory 001 field
and an 008 field of at least 24 characters with `q` or `s` at position 23,
the conversion with `skip_digital` enabled produces no output record, while
the conversion of the same record with `skip_digital` disabled produces
one. -/
theorem C7_digital_filter (r : MarcRecord) (f001 f008 : MarcField)
    (h001 : r.get "001" = some f001) (h008 : r.get "008" = some f008)
    (hlen : 23 < f008.value.data.length)
    (hqs : f008.value.data.get ⟨23, hlen⟩ = 'q' ∨
      f008.value.data.get ⟨23, hlen⟩ = 's') :
    convertRecord true r = .ok (none, []) ∧
      ∃ out tr, convertRecord false r = .ok (some out, tr) := by
  constructor
  · rw [convertRecord_true_eq r f001 f008 h001 h008 hlen, if_pos hqs]
  · exact ⟨_, _, convertRecord_false_eq r f001 h001⟩

/-- Claim C7 (witness): `recDigital` (001 present, 008 with `q` at position
23) is skipped entirely when `skip_digital` is enabled and converted when it
is disabled. -/
theorem C7_witness :
    convertRecord true recDigital = Except.ok (none, []) ∧
      ∃ out tr, convertRecord false recDigital = Except.ok (some out, tr) :=
  C7_digital_filter recDigital ⟨"001", "b2", []⟩
    ⟨"008", "                       q", []⟩ rfl rfl (by decide) (by decide)

/-- Claim C8: in every successfully converted record, the year-published
field holds `n` exactly when the cleaned 260 subfield `c` exists and its
first 4-digit run has value `n`, and the page-count field holds `n` exactly
when the cleaned 300 subfield `a` exists and its leading digit run has
value `n`; both fields are `Option Nat`-valued, so they are always either a
non-negative integer or absent. -/
theorem C8_numeric_extraction (skip : Bool) (r : MarcRecord)
    (out : ReadableRecord) (tr : List String)
    (h : convertRecord skip r = .ok (some out, tr)) :
    (∀ n, out.year_published = some n ↔
        ∃ f, r.get "260" = some f ∧
          specFirstFourDigitRun (get_stripped_subfield f 'c').data n)
  ∧ (∀ n, out.num_pages = some n ↔
        ∃ f, r.get "300" = some f ∧
          specLeadingDigitRun (get_stripped_subfield f 'a').data n) := by
  obtain ⟨f001, -, hout, -⟩ := convertRecord_ok_build h
  subst hout
  constructor
  · intro n
    rw [build_year_published]
    unfold yearVal
    cases h260 : r.get "260" with
    | none =>
      simp only [h260]
      constructor
      · intro hc; cases hc
      · rintro ⟨f, hf, -⟩; cases hf
    | some f =>
      dsimp only
      by_cases hc : get_stripped_subfield f 'c' = ""
      · rw [if_pos hc]
        constructor
        · intro hx; cases hx
        · rintro ⟨f', hf', hs⟩
          injection hf' with hf'
          subst hf'
          rw [hc] at hs
          have := (find4digits_iff [] n).mpr hs
          cases this
      · rw [if_neg hc, find4digits_iff]
        constructor
        · intro hs; exact ⟨f, rfl, hs⟩
        · rintro ⟨f', hf', hs⟩
          injection hf' with hf'
          subst hf'
          exact hs
  · intro n
    rw [build_num_pages]
    unfold numPagesVal
    cases h300 : r.get "300" with
    | none =>
      simp only [h300]
      constructor
      · intro hc; cases hc
      · rintro ⟨f, hf, -⟩; cases hf
    | some f =>
      dsimp only
      by_cases hc : get_stripped_subfield f 'a' = ""
      · rw [if_pos hc]
        constructor
        · intro hx; cases hx
        · rintro ⟨f', hf', hs⟩
          injection hf' with hf'
          subst hf'
          rw [hc] at hs
          have h0 := (leadingNumber_iff [] n).mpr hs
          simp [leadingNumber] at h0
      · rw [if_neg hc, leadingNumber_iff]
        constructor
        · intro hs; exact ⟨f, rfl, hs⟩
        · rintro ⟨f', hf', hs⟩
          injection hf' with hf'
          subst hf'
          exact hs

/-- Claim C8 (witness): the spec's examples on `recNumeric` — the cleaned
260c value `"Tallinn : Valgus, 1987"` yields year 1987 (its first 4-digit
run starts at index 18), and the cleaned 300a value `"245 lk"` yields page
count 245. -/
theorem C8_witness :
    outNumeric.year_published = some 1987 ∧ outNumeric.num_pages = some 245 := by
  have h := C8_numeric_extraction false recNumeric outNumeric
    (printsVal recNumeric "b3") rfl
  constructor
  · exact (h.1 1987).mpr ⟨⟨"260", "", [('c', "Tallinn : Valgus, 1987.")]⟩, rfl,
      18, by decide, by decide, by decide⟩
  · exact (h.2 245).mpr ⟨⟨"300", "", [('a', "245 lk.")]⟩, rfl,
      "245".data, " lk".data, by decide, by decide, by decide, by decide, by decide⟩

/-- Claim C3 (counterexample): the claim's "never raises an error" fails for
`skip_digital = true` — a record with the mandatory identifier but no 008
field raises an AttributeError instead of leaving defaults. -/
theorem C3_skip_digital_missing_008_errors :
    MarcRecord.get recIdOnly "008" = none ∧
      convertRecord true recIdOnly = .error PyErr.attributeError := ⟨rfl, rfl⟩

/-- Claim C3 (amended): for a record with the mandatory identifier field,
conversion with `skip_digital = false` never raises; with
`skip_digital = true` it never raises provided the record has an 008 field
longer than 23 characters (missing or short 008 raises).  In every
successful conversion, each absent optional field or subfield leaves the
corresponding output attribute at its default (empty string, empty list, or
absent number). -/
theorem C3_missing_optional_defaults (r : MarcRecord) (f001 : MarcField)
    (h001 : r.get "001" = some f001) :
    (∃ res, convertRecord false r = .ok res)
  ∧ (∀ f008, r.get "008" = some f008 → 23 < f008.value.data.length →
      ∃ res, convertRecord true r = .ok res)
  ∧ (∀ (skip : Bool) (out : ReadableRecord) (tr : List String),
      convertRecord skip r = .ok (some out, tr) →
        (r.get "245" = none →
          out.title = "" ∧ out.subtitle = "" ∧ out.part_number = "" ∧
            out.part_name = "")
      ∧ (∀ tf, r.get "245" = some tf → tf.get 'a' = none → out.title = "")
      ∧ (∀ tf, r.get "245" = some tf → tf.get 'b' = none → out.subtitle = "")
      ∧ (∀ tf, r.get "245" = some tf → tf.get_subfields 'n' = [] →
          out.part_number = "")
      ∧ (∀ tf, r.get "245" = some tf → tf.get_subfields 'p' = [] →
          out.part_name = "")
      ∧ (r.get "250" = none → out.edition = "")
      ∧ (r.get "100" = none → r.getFields "700" = [] → out.authors = [])
      ∧ (r.get "260" = none →
          out.publisher = "" ∧ out.year_published = none ∧
            out.city_published = "")
      ∧ (∀ f, r.get "260" = some f → f.get 'c' = none →
          out.year_published = none)
      ∧ (r.get "020" = none → out.isbn = "")
      ∧ (r.get "490" = none → out.series = "" ∧ out.series_number = "")
      ∧ (r.get "300" = none → out.num_pages = none ∧ out.dimensions = "")
      ∧ (∀ f, r.get "300" = some f → f.get 'a' = none → out.num_pages = none)
      ∧ (r.get "008" = none → out.language = "")
      ∧ (r.get "041" = none → out.original_language = "")
      ∧ (r.getFields "655" = [] → out.genres = [])
      ∧ (r.getFields "700" = [] →
          out.editors = [] ∧ out.publishers = [] ∧ out.compilers = [] ∧
            out.illustrators = [] ∧ out.translators = [] ∧
            out.designers = [] ∧ out.photographers = [])) := by
  refine ⟨⟨_, convertRecord_false_eq r f001 h001⟩, ?_, ?_⟩
  · intro f008 h008 hlen
    rw [convertRecord_true_eq r f001 f008 h001 h008 hlen]
    split
    · exact ⟨_, rfl⟩
    · exact ⟨_, rfl⟩
  · intro skip out tr h
    obtain ⟨g, -, hout, -⟩ := convertRecord_ok_build h
    subst hout
    refine ⟨?_, ?_, ?_, ?_, ?_, ?_, ?_, ?_, ?_, ?_, ?_, ?_, ?_, ?_, ?_, ?_, ?_⟩
    · intro h245
      refine ⟨?_, ?_, ?_, ?_⟩
      · rw [build_title]; unfold titleVal; rw [h245]
      · rw [build_subtitle]; unfold subtitleVal; rw [h245]
      · rw [build_part_number]; unfold part_numberVal; rw [h245]
      · rw [build_part_name]; unfold part_nameVal; rw [h245]
    · intro tf h245 ha
      rw [build_title]
      unfold titleVal
      rw [h245]
      show get_stripped_subfield tf 'a' = ""
      unfold get_stripped_subfield
      rw [ha]
    · intro tf h245 hb
      rw [build_subtitle]
      unfold subtitleVal
      rw [h245]
      show get_stripped_subfield tf 'b' = ""
      unfold get_stripped_subfield
      rw [hb]
    · intro tf h245 hn
      rw [build_part_number]
      unfold part_numberVal
      rw [h245]
      have hemp : get_stripped_subfields tf 'n' = [] := by
        unfold get_stripped_subfields
        rw [hn]
        rfl
      show (if (get_stripped_subfields tf 'n').isEmpty then ""
        else String.intercalate ", " (get_stripped_subfields tf 'n')) = ""
      rw [hemp]
      rfl
    · intro tf h245 hp
      rw [build_part_name]
      unfold part_nameVal
      rw [h245]
      have hemp : get_stripped_subfields tf 'p' = [] := by
        unfold get_stripped_subfields
        rw [hp]
        rfl
      show (if (get_stripped_subfields tf 'p').isEmpty then ""
        else String.intercalate ", " (get_stripped_subfields tf 'p')) = ""
      rw [hemp]
      rfl
    · intro h250
      rw [build_edition]; unfold editionVal; rw [h250]
    · intro h100 h700
      show (build r g.value).authors = []
      unfold build step700
      rw [h700]
      show authors100Val r [] = []
      unfold authors100Val
      rw [h100]
      rfl
    · intro h260
      refine ⟨?_, ?_, ?_⟩
      · rw [build_publisher]; unfold publisherVal; rw [h260]
      · rw [build_year_published]; unfold yearVal; rw [h260]
      · rw [build_city_published]; unfold cityVal; rw [h260]
    · intro f h260 hc
      rw [build_year_published]
      unfold yearVal
      rw [h260]
      have hgss : get_stripped_subfield f 'c' = "" := by
        unfold get_stripped_subfield
        rw [hc]
      show (if get_stripped_subfield f 'c' = "" then none
        else find4digits (get_stripped_subfield f 'c').data) = none
      rw [if_pos hgss]
    · intro h020
      rw [build_isbn]; unfold isbnVal; rw [h020]
    · intro h490
      refine ⟨?_, ?_⟩
      · rw [build_series]; unfold seriesVal; rw [h490]
      · rw [build_series_number]; unfold series_numberVal; rw [h490]
    · intro h300
      refine ⟨?_, ?_⟩
      · rw [build_num_pages]; unfold numPagesVal; rw [h300]
      · rw [build_dimensions]; unfold dimensionsVal; rw [h300]
    · intro f h300 ha
      rw [build_num_pages]
      unfold numPagesVal
      rw [h300]
      have hgss : get_stripped_subfield f 'a' = "" := by
        unfold get_stripped_subfield
        rw [ha]
      show (if get_stripped_subfield f 'a' = "" then none
        else leadingNumber (get_stripped_subfield f 'a').data) = none
      rw [if_pos hgss]
    · intro h008
      rw [build_language]; unfold languageVal; rw [h008]
    · intro h041
      rw [build_original_language]; unfold original_languageVal; rw [h041]
    · intro h655
      rw [build_genres]; unfold genresVal; rw [h655]; rfl
    · intro h700
      unfold build step700
      rw [h700]
      exact ⟨rfl, rfl, rfl, rfl, rfl, rfl, rfl⟩

/-- Claim C3 (witness): `recIdOnly` has only the identifier field; the
conversion with the filter disabled succeeds and the title is left at its
default. -/
theorem C3_witness :
    (∃ res, convertRecord false recIdOnly = Except.ok res) ∧
      (build recIdOnly "b555").title = "" := by
  have h := C3_missing_optional_defaults recIdOnly ⟨"001", "b555", []⟩ rfl
  refine ⟨h.1, ?_⟩
  exact ((h.2.2 false (build recIdOnly "b555")
    (printsVal recIdOnly "b555") rfl).1 rfl).1

end MarcToReadable
